import Mathlib

set_option maxHeartbeats 1000000

/-!
Shallow embedding of the resdes/soldr declarative validation library
(path normalizer, field assertions, fault aggregation, message validator,
arrangement pipeline, and the protobuf field-presence resolver), together
with theorems settling the specification claims about it.
-/

namespace Resdes

/-- Concrete reflect types of the dynamic values the library compares.
`reflect.TypeOf` of a nil interface is nil, modelled as `Option GoTy = none`. -/
inductive GoTy where
  | tstr : GoTy
  | tint : GoTy
  | tbool : GoTy
deriving DecidableEq

/-- Dynamic (`any` / `interface\x7b\x7d`) values captured by field declarations. -/
inductive GoVal where
  | vnil : GoVal
  | vstr : String → GoVal
  | vint : Int → GoVal
  | vbool : Bool → GoVal
deriving DecidableEq

/-- `reflect.TypeOf`: nil interface has no type. -/
def GoVal.typeOf : GoVal → Option GoTy
  | .vnil => none
  | .vstr _ => some .tstr
  | .vint _ => some .tint
  | .vbool _ => some .tbool

/-- isZero from field.go: nil is zero, otherwise `reflect.Value.IsZero`
(empty string, zero integer, false). -/
def GoVal.isZero : GoVal → Bool
  | .vnil => true
  | .vstr s => s == ""
  | .vint n => n == 0
  | .vbool b => !b

/-- Rendering of a dynamic value by the `%v` fmt verb. -/
def GoVal.render : GoVal → String
  | .vnil => "<nil>"
  | .vstr s => s
  | .vint n => toString n
  | .vbool b => if b then "true" else "false"

/-- Rendering of a `reflect.Type` by the `%v` fmt verb (nil type prints <nil>). -/
def GoTy.renderOpt : Option GoTy → String
  | none => "<nil>"
  | some .tstr => "string"
  | some .tint => "int"
  | some .tbool => "bool"

/-- Go error values as built by this library: `errors.New` leaves,
`fmt.Errorf` wrapping with a message and the `%w` verb, and binary
`errors.Join`. -/
inductive GoErr where
  | base : String → GoErr
  | wrapf : String → GoErr → GoErr
  | join : GoErr → GoErr → GoErr
deriving DecidableEq

/-- `Error()` string of an error value: a wrap renders its message followed
by the wrapped error, a join renders the two messages separated by a newline. -/
def GoErr.render : GoErr → String
  | .base m => m
  | .wrapf pre e => pre ++ e.render
  | .join a b => a.render ++ "\n" ++ b.render

/-- errors.Is restricted to the error shapes this library builds: identity at
each step of the unwrap chain (joins expose both children). -/
def GoErr.is : GoErr → GoErr → Bool
  | e@(.base _), t => e == t
  | e@(.wrapf _ inner), t => e == t || inner.is t
  | e@(.join a b), t => e == t || a.is t || b.is t

/-- errors.Join of two possibly-nil errors: nils are discarded; the result is
nil only when both are nil (a join of one error renders as that error alone). -/
def errorsJoin : Option GoErr → Option GoErr → Option GoErr
  | none, none => none
  | some a, none => some a
  | none, some b => some b
  | some a, some b => some (.join a b)

/-- Sentinel from errors.go. -/
def ErrFieldComparisonFailedNotComparable : GoErr :=
  .base ("equality check failed, types not comparable")

/-- Sentinel from errors.go. -/
def ErrFieldMustEqualFailed : GoErr :=
  .base ("expected values to be equal")

/-- Sentinel from errors.go. -/
def ErrFieldMustNotEqualFailed : GoErr :=
  .base ("field set to forbidden value")

/-- Sentinel from errors.go. -/
def ErrFieldMustNotBeZeroFailed : GoErr :=
  .base ("field set to zero value")

def newFieldsNotComparableErr (id : String) (exp act : Option GoTy) : GoErr :=
  .wrapf ("field: " ++ id ++ ", value: " ++ GoTy.renderOpt exp ++ ", compareTo: "
    ++ GoTy.renderOpt act ++ ": ") ErrFieldComparisonFailedNotComparable

def newFieldMustEqualFailedErr (id : String) (exp act : GoVal) : GoErr :=
  .wrapf ("field: " ++ id ++ ", value: " ++ exp.render ++ ", compareTo: "
    ++ act.render ++ ": ") ErrFieldMustEqualFailed

def newFieldMustNotEqualFailedErr (id : String) (act : GoVal) : GoErr :=
  .wrapf ("field: " ++ id ++ ", value: " ++ act.render ++ ": ")
    ErrFieldMustNotEqualFailed

def newFieldMustNotBeZeroFailedErr (id : String) (act : GoVal) : GoErr :=
  .wrapf ("field: " ++ id ++ ", value: " ++ act.render ++ ": ")
    ErrFieldMustNotBeZeroFailed

/-- Character loop of NormalizePath: an underscore is dropped and upper-cases
the next character. -/
def normalizeChars : List Char → Bool → List Char
  | [], _ => []
  | c :: rest, up =>
    if c = '_' then normalizeChars rest true
    else if up then c.toUpper :: normalizeChars rest false
    else c :: normalizeChars rest false

/-- NormalizePath from the resdes mask utilities: snake_case segments converge
to the camelCase form used by field masks. -/
def NormalizePath (path : String) : String :=
  ⟨normalizeChars path.data false⟩

/-- GetPathsFromMask: a nil or empty mask produces a nil set; otherwise every
mask entry is normalized into the set. -/
def GetPathsFromMask (fieldMask : List String) : Option (List String) :=
  if fieldMask.isEmpty then none
  else some (fieldMask.map NormalizePath)

/-- IsPathInMask: membership in the normalized mask set; a nil set contains
nothing. -/
def IsPathInMask (path : String) (paths : Option (List String)) : Bool :=
  match paths with
  | none => false
  | some ps => ps.contains path

/-- Policy from policy.go (resdes iteration). -/
inductive Policy where
  | NonZero : Policy
  | NotEqualTo : Policy
  | MustEqual : Policy
  | Custom : Policy
deriving DecidableEq

/-- Policy.String from policy.go. -/
def Policy.string : Policy → String
  | .NonZero => "non-zero"
  | .MustEqual => "must equal"
  | .NotEqualTo => "must not equal"
  | .Custom => "custom evaluation"

/-- Condition from policy.go. -/
inductive Condition where
  | Always : Condition
  | InMask : Condition
deriving DecidableEq

/-- Field from field.go. -/
structure Field where
  path : String
  pathNormalized : String
  value : GoVal
  inMask : Bool
  zero : Bool
  policy : Policy
  condition : Condition
  cmpTo : GoVal
deriving DecidableEq

/-- NewField from field.go: zero-ness and mask membership are computed once at
construction. -/
def NewField (path : String) (value : GoVal) (policy : Policy)
    (condition : Condition) (cmpTo : GoVal) (paths : Option (List String)) : Field :=
  { path := path
    pathNormalized := NormalizePath path
    value := value
    inMask := IsPathInMask (NormalizePath path) paths
    zero := value.isZero
    policy := policy
    condition := condition
    cmpTo := cmpTo }

/-- Field.checkEquals: values of different concrete reflect types are not
comparable (a configuration fault); otherwise deep equality via cmp.Equal. -/
def Field.checkEquals (f : Field) : Except GoErr Bool :=
  if f.value.typeOf ≠ f.cmpTo.typeOf then
    .error (newFieldsNotComparableErr f.path f.value.typeOf f.cmpTo.typeOf)
  else
    .ok (f.value == f.cmpTo)

/-- Field.Validate from field.go: skip mask-conditioned fields that are not in
the mask, then apply the declared policy. -/
def Field.Validate (f : Field) : Option GoErr :=
  if f.condition = .InMask ∧ ¬f.inMask then none
  else if f.policy = .NonZero then
    if f.zero then some (newFieldMustNotBeZeroFailedErr f.path f.value) else none
  else
    match f.checkEquals with
    | .error e => some e
    | .ok eq =>
      if f.policy = .NotEqualTo ∧ eq then
        some (newFieldMustNotEqualFailedErr f.path f.cmpTo)
      else if f.policy = .MustEqual ∧ ¬eq then
        some (newFieldMustEqualFailedErr f.path f.cmpTo f.value)
      else none

/-- FieldError from errors.go: one fault entry for one path. Absent values
(nil interfaces, nil error) are `vnil` / `none`. -/
structure FieldError where
  Path : String
  Policy : Policy
  Value : GoVal
  Expected : GoVal
  Err : Option GoErr
deriving DecidableEq

/-- FieldError.Error rendering. -/
def FieldError.errorString (f : FieldError) : String :=
  match f.Err with
  | some e => f.Path ++ " failed " ++ f.Policy.string ++ " policy: " ++ e.render
  | none => ""

/-- FieldErrorFromField from errors.go. -/
def FieldErrorFromField (f : Field) (err : GoErr) : FieldError :=
  { Path := f.path
    Policy := f.policy
    Value := f.value
    Expected := f.cmpTo
    Err := some err }

/-- Association lookup mirroring a Go map whose keys are unique. -/
def alookup {α : Type} : List (String × α) → String → Option α
  | [], _ => none
  | (k, a) :: rest, p => if p = k then some a else alookup rest p

/-- ValidationErrors from errors.go: ordered fault list, an optional top-level
custom validation error, and the path → position index. -/
structure ValidationErrors where
  FieldErrors : List FieldError
  CustomValidationError : Option GoErr
  idx : List (String × Nat)
deriving DecidableEq

/-- NewValidationErrors from errors.go. -/
def NewValidationErrors : ValidationErrors :=
  { FieldErrors := [], CustomValidationError := none, idx := [] }

/-- ValidationErrors.addErr: a fault whose path is already indexed joins its
cause onto the existing entry in place; a new path is appended and indexed.
The inner `none` branch is unreachable whenever the index is consistent with
the list (the only states the library constructs). -/
def ValidationErrors.addErr (v : ValidationErrors) (fieldErr : FieldError) : ValidationErrors :=
  match alookup v.idx fieldErr.Path with
  | some i =>
    match v.FieldErrors.get? i with
    | some old =>
      { v with FieldErrors := v.FieldErrors.set i { old with Err := errorsJoin old.Err fieldErr.Err } }
    | none => v
  | none =>
    { v with
      FieldErrors := v.FieldErrors ++ [fieldErr]
      idx := v.idx ++ [(fieldErr.Path, v.FieldErrors.length)] }

/-- ValidationErrors.addFieldErr from errors.go. -/
def ValidationErrors.addFieldErr (v : ValidationErrors) (field : Field) (err : GoErr) : ValidationErrors :=
  v.addErr (FieldErrorFromField field err)

/-- ValidationErrors.AddFieldErr from errors.go: entry point for custom
validation functions, with functional options for value and expected value. -/
def ValidationErrors.AddFieldErr (v : ValidationErrors) (path : String) (err : Option GoErr)
    (options : List (FieldError → FieldError)) : ValidationErrors :=
  v.addErr (options.foldl (fun fe o => o fe)
    { Path := path, Err := err, Policy := .Custom, Value := .vnil, Expected := .vnil })

/-- ValidationErrors.HasErrors from errors.go. -/
def ValidationErrors.HasErrors (v : ValidationErrors) : Bool :=
  v.FieldErrors.length > 0 || v.CustomValidationError.isSome

/-- ValidationErrors.SetCustomValidationErr from errors.go. -/
def ValidationErrors.SetCustomValidationErr (v : ValidationErrors) (err : GoErr) : ValidationErrors :=
  { v with CustomValidationError := some err }

/-- ValidationErrors.Error from errors.go, including the nil-receiver case. -/
def ValidationErrors.errorString : Option ValidationErrors → String
  | none => ""
  | some v =>
    (match v.CustomValidationError with
     | some e => e.render ++ "\n"
     | none => "") ++
    String.join (v.FieldErrors.map (fun e => e.errorString ++ "\n"))

/-- Paths of the recorded faults, in list order. -/
def ValidationErrors.pathList (v : ValidationErrors) : List String :=
  v.FieldErrors.map (fun e => e.Path)

/-- Consistency of the index with the fault list: exactly the invariant the
library maintains (an index entry points at the entry with its path, and every
entry is indexed at its own position). -/
def ValidationErrors.wf (v : ValidationErrors) : Prop :=
  (∀ p i, alookup v.idx p = some i → ∃ fe, v.FieldErrors.get? i = some fe ∧ fe.Path = p) ∧
  (∀ i fe, v.FieldErrors.get? i = some fe → alookup v.idx fe.Path = some i)

/-- Result class of a custom validation function: nil error, the very
collector it was handed (or an error whose unwrap chain reaches it, so that
`errors.Is err errs` holds), or an unrelated non-nil error. -/
inductive CustomRet where
  | nilErr : CustomRet
  | collectorErr : CustomRet
  | otherErr : GoErr → CustomRet
deriving DecidableEq

/-- A custom validation function, for a fixed context and message: it may
mutate the collector it is handed and returns an error classified by
`CustomRet`. -/
def CustomFn : Type := ValidationErrors → ValidationErrors × CustomRet

/-- DefaultMessageValidator from the resdes validator source. -/
structure DefaultMessageValidator where
  customValidation : Option CustomFn
  paths : Option (List String)
  fields : List Field

/-- ForMessage: builds a validator, normalizing the mask paths once. -/
def ForMessage (fieldMask : List String) : DefaultMessageValidator :=
  { customValidation := none, paths := GetPathsFromMask fieldMask, fields := [] }

/-- AssertNonZero builder method. -/
def DefaultMessageValidator.AssertNonZero (s : DefaultMessageValidator)
    (path : String) (value : GoVal) : DefaultMessageValidator :=
  { s with fields := s.fields ++ [NewField path value .NonZero .Always .vnil s.paths] }

/-- AssertNotEqualTo builder method. -/
def DefaultMessageValidator.AssertNotEqualTo (s : DefaultMessageValidator)
    (path : String) (value notEqualTo : GoVal) : DefaultMessageValidator :=
  { s with fields := s.fields ++ [NewField path value .NotEqualTo .Always notEqualTo s.paths] }

/-- AssertEqualTo builder method. -/
def DefaultMessageValidator.AssertEqualTo (s : DefaultMessageValidator)
    (path : String) (value equalTo : GoVal) : DefaultMessageValidator :=
  { s with fields := s.fields ++ [NewField path value .MustEqual .Always equalTo s.paths] }

/-- AssertNonZeroWhenInMask builder method. -/
def DefaultMessageValidator.AssertNonZeroWhenInMask (s : DefaultMessageValidator)
    (path : String) (value : GoVal) : DefaultMessageValidator :=
  { s with fields := s.fields ++ [NewField path value .NonZero .InMask .vnil s.paths] }

/-- AssertNotEqualToWhenInMask builder method. -/
def DefaultMessageValidator.AssertNotEqualToWhenInMask (s : DefaultMessageValidator)
    (path : String) (value notEqualTo : GoVal) : DefaultMessageValidator :=
  { s with fields := s.fields ++ [NewField path value .NotEqualTo .InMask notEqualTo s.paths] }

/-- AssertEqualToWhenInMask builder method. -/
def DefaultMessageValidator.AssertEqualToWhenInMask (s : DefaultMessageValidator)
    (path : String) (value equalTo : GoVal) : DefaultMessageValidator :=
  { s with fields := s.fields ++ [NewField path value .MustEqual .InMask equalTo s.paths] }

/-- CustomValidation builder method: a second call replaces the slot. -/
def DefaultMessageValidator.CustomValidation (s : DefaultMessageValidator)
    (act : CustomFn) : DefaultMessageValidator :=
  { s with customValidation := some act }

/-- Custom-validation step of Exec: the returned error is wrapped and stored
only when it is non-nil and `errors.Is` does not relate it to the collector. -/
def runCustom (cv : Option CustomFn) (errs : ValidationErrors) : ValidationErrors :=
  match cv with
  | none => errs
  | some f =>
    match f errs with
    | (e2, .nilErr) => e2
    | (e2, .collectorErr) => e2
    | (e2, .otherErr g) =>
      e2.SetCustomValidationErr
        (.wrapf ("an error occurred during custom message validation: ") g)

/-- Field loop of Exec: every declared field is validated in declaration
order and each fault is added to the aggregate. -/
def execFields (errs : ValidationErrors) (fields : List Field) : ValidationErrors :=
  fields.foldl
    (fun acc field =>
      match field.Validate with
      | some e => acc.addFieldErr field e
      | none => acc) errs

/-- DefaultMessageValidator.Exec: custom validation first, then the field
assertions; the aggregate is returned only when it holds any error. -/
def DefaultMessageValidator.Exec (s : DefaultMessageValidator) : Option ValidationErrors :=
  let errs := execFields (runCustom s.customValidation NewValidationErrors) s.fields
  if errs.HasErrors then some errs else none

/-- One fluent builder call, as data, so that whole declaration sequences can
be quantified over. -/
inductive Decl where
  | assertNonZero : String → GoVal → Decl
  | assertNotEqualTo : String → GoVal → GoVal → Decl
  | assertEqualTo : String → GoVal → GoVal → Decl
  | assertNonZeroWhenInMask : String → GoVal → Decl
  | assertNotEqualToWhenInMask : String → GoVal → GoVal → Decl
  | assertEqualToWhenInMask : String → GoVal → GoVal → Decl

/-- Apply one builder call. -/
def applyDecl (s : DefaultMessageValidator) : Decl → DefaultMessageValidator
  | .assertNonZero p v => s.AssertNonZero p v
  | .assertNotEqualTo p v t => s.AssertNotEqualTo p v t
  | .assertEqualTo p v t => s.AssertEqualTo p v t
  | .assertNonZeroWhenInMask p v => s.AssertNonZeroWhenInMask p v
  | .assertNotEqualToWhenInMask p v t => s.AssertNotEqualToWhenInMask p v t
  | .assertEqualToWhenInMask p v t => s.AssertEqualToWhenInMask p v t

/-- A validator built fluently from a mask and a sequence of builder calls. -/
def buildValidator (mask : List String) (decls : List Decl) : DefaultMessageValidator :=
  decls.foldl applyDecl (ForMessage mask)

/-- Error from errors.go: the per-stage error envelope of an Arrangement.
The AuthError and ServeErr wrapper structs are transparent (their Error and
Unwrap return the wrapped error), so the wrapped error is stored directly. -/
structure Error where
  AuthError : Option GoErr
  ValidationErrs : Option ValidationErrors
  ServeError : Option GoErr
deriving DecidableEq

/-- Number of populated error classes in a stage-error envelope. -/
def Error.classCount (e : Error) : Nat :=
  (if e.AuthError.isSome then 1 else 0) +
  (if e.ValidationErrs.isSome then 1 else 0) +
  (if e.ServeError.isSome then 1 else 0)

/-- Stage names of an Arrangement, for recording which stage functions were
invoked. -/
inductive Stage where
  | auth : Stage
  | validate : Stage
  | serve : Stage
deriving DecidableEq

/-- Arrangement from the resdes source, for a fixed context and message: each
optional stage function is modelled by the result it produces when invoked
(`none` means the stage function is absent). The Validate stage result is the
`Option ValidationErrors` returned by the validator's Exec. -/
structure Arrangement (U : Type) where
  Auth : Option (Option GoErr)
  Validate : Option (Option ValidationErrors)
  Serve : Option (U × Option GoErr)

/-- Serve step of Arrangement.Exec: runs only when reached; a serve error is
returned together with whatever payload the Serve function produced. -/
def execServe {U : Type} (s : Arrangement U) (zeroU : U) (inv : List Stage) :
    (U × Option Error) × List Stage :=
  match s.Serve with
  | none => ((zeroU, none), inv)
  | some (res, some err) =>
    ((res, some { AuthError := none, ValidationErrs := none, ServeError := some err }),
      inv ++ [.serve])
  | some (res, none) => ((res, none), inv ++ [.serve])

/-- Validate step of Arrangement.Exec. -/
def execValidate {U : Type} (s : Arrangement U) (zeroU : U) (inv : List Stage) :
    (U × Option Error) × List Stage :=
  match s.Validate with
  | none => execServe s zeroU inv
  | some none => execServe s zeroU (inv ++ [.validate])
  | some (some verrs) =>
    ((zeroU, some { AuthError := none, ValidationErrs := some verrs, ServeError := none }),
      inv ++ [.validate])

/-- Arrangement.Exec: Auth, then Validate, then Serve; the first stage to
produce an error writes it into a fresh envelope and returns at once. The
second component records, in order, the stage functions that were invoked. -/
def Arrangement.Exec {U : Type} (s : Arrangement U) (zeroU : U) :
    (U × Option Error) × List Stage :=
  match s.Auth with
  | none => execValidate s zeroU []
  | some none => execValidate s zeroU [.auth]
  | some (some err) =>
    ((zeroU, some { AuthError := some err, ValidationErrs := none, ServeError := none }),
      [.auth])

/-- A protobuf message viewed through its reflection surface: a descriptor
listing, per schema field, the proto name, the JSON name, whether the field is
explicitly set on the message, and the nested message value obtained from Get
(`none` when the value has no message, the case the code compares to nil). -/
inductive PMsg where
  | mk : List (String × String × Bool × Option PMsg) → PMsg

/-- Field entries of a message descriptor. -/
def PMsg.fields : PMsg → List (String × String × Bool × Option PMsg)
  | .mk fs => fs

/-- descriptor.Fields().ByName with the ByJSONName fallback, paired with what
the code then reads from the message: Has and Get(...).Message(). -/
def PMsg.lookupField (m : PMsg) (part : String) : Option (Bool × Option PMsg) :=
  match m.fields.find? (fun f => f.1 == part) with
  | some (_, _, h, sub) => some (h, sub)
  | none =>
    match m.fields.find? (fun f => f.2.1 == part) with
    | some (_, _, h, sub) => some (h, sub)
    | none => none

/-- strings.Split on the dot separator, over the character list: every dot
ends the current (possibly empty) segment. -/
def splitCharsOnDot : List Char → List (List Char)
  | [] => [[]]
  | c :: rest =>
    if c = '.' then [] :: splitCharsOnDot rest
    else
      match splitCharsOnDot rest with
      | [] => [[c]]
      | h :: t => (c :: h) :: t

/-- strings.Split(path, the dot delimiter) from processor.go. -/
def splitOnDot (s : String) : List String :=
  (splitCharsOnDot s.data).map (fun l => ⟨l⟩)

/-- processedField from processor.go: `value` is the stored `*protoreflect.Value`
(outer `none` is the nil pointer of the not-found entry) and the inner option
is the result of `Value.Message()`. -/
structure ProcessedField where
  value : Option (Option PMsg)
  set : Bool

/-- The memoization cache of a fieldProcessor, keyed by the strings the code
actually computes. -/
abbrev FpCache : Type := List (String × ProcessedField)

/-- Segment loop of fieldProcessor.isFieldSet, transcribed with the source's
currentPath computation: the first iteration assigns the full path and every
later iteration appends only a dot. -/
def isFieldSetLoop (cache : FpCache) (path : String) (msg : PMsg) :
    List String → String → Bool × FpCache
  | [], _ => (false, cache)
  | part :: rest, currentPath0 =>
    let currentPath := if currentPath0 = "" then path else currentPath0 ++ "."
    match alookup cache currentPath with
    | some cached =>
      if !cached.set then (false, cache)
      else if rest.isEmpty then (true, cache)
      else
        match cached.value with
        | none => (false, cache)
        | some none => (false, cache)
        | some (some next) => isFieldSetLoop cache path next rest currentPath
    | none =>
      match msg.lookupField part with
      | none => (false, cache ++ [(currentPath, { value := none, set := false })])
      | some (set, sub) =>
        let cache := cache ++ [(currentPath, { value := some sub, set := set })]
        if rest.isEmpty then (set, cache)
        else
          match sub with
          | none => (false, cache)
          | some next => isFieldSetLoop cache path next rest currentPath

/-- fieldProcessor.isFieldSet from processor.go: nil message, empty path and a
lone delimiter short-circuit to false; otherwise the path is split on the
delimiter and the segment loop runs against the cache. -/
def fieldProcessor.isFieldSet (cache : FpCache) (path : String) (message : Option PMsg) :
    Bool × FpCache :=
  match message with
  | none => (false, cache)
  | some msg =>
    if path = "" ∨ path = "." then (false, cache)
    else isFieldSetLoop cache path msg (splitOnDot path) ("")

/-- Cache keys present after a processor run, in insertion order. -/
def cacheKeys (c : FpCache) : List String :=
  c.map (fun e => e.1)

/-! Helper lemmas. -/

theorem normalizeChars_nil_iff (l : List Char) :
    ∀ b, (normalizeChars l b = [] ↔ ∀ c ∈ l, c = '_') := by
  induction l with
  | nil => intro b; simp [normalizeChars]
  | cons c rest ih =>
    intro b
    by_cases hc : c = '_'
    · subst hc
      simp [normalizeChars, ih true]
    · constructor
      · intro h
        exfalso
        by_cases hb : b
        · subst hb; simp [normalizeChars, hc] at h
        · simp at hb; subst hb; simp [normalizeChars, hc] at h
      · intro h
        exact absurd (h c (by simp)) hc

theorem alookup_append {α : Type} (l₁ l₂ : List (String × α)) (p : String) :
    alookup (l₁ ++ l₂) p =
      (match alookup l₁ p with
       | some a => some a
       | none => alookup l₂ p) := by
  induction l₁ with
  | nil => simp [alookup]
  | cons kv rest ih =>
    obtain ⟨k, a⟩ := kv
    by_cases h : p = k <;> simp [alookup, h, ih]

theorem nodup_map_of_get_inj {α β : Type} (l : List α) (f : α → β)
    (h : ∀ i j a b, l.get? i = some a → l.get? j = some b → f a = f b → i = j) :
    (l.map f).Nodup := by
  induction l with
  | nil => simp
  | cons x xs ih =>
    simp only [List.map_cons, List.nodup_cons]
    constructor
    · intro hmem
      obtain ⟨y, hy, hfy⟩ := List.mem_map.mp hmem
      obtain ⟨k, hk⟩ := List.mem_iff_get?.mp hy
      exact absurd (h 0 (k + 1) x y rfl (by simpa using hk) hfy.symm).symm (by omega)
    · exact ih (fun i j a b ha hb hf => by
        have := h (i + 1) (j + 1) a b (by simpa using ha) (by simpa using hb) hf
        omega)

theorem wf_pathList_nodup (v : ValidationErrors) (hwf : v.wf) : v.pathList.Nodup := by
  refine nodup_map_of_get_inj v.FieldErrors (fun e => e.Path) ?_
  intro i j a b ha hb hf
  have hf' : a.Path = b.Path := hf
  have h1 := hwf.2 i a ha
  have h2 := hwf.2 j b hb
  rw [hf'] at h1
  rw [h1] at h2
  exact Option.some.inj h2

/-! Claim C9. -/

/-- C9 counterexample: the path a..b contains empty segments yet normalizes to
itself, not the empty string; moreover the empty string can match a mask entry
(a mask entry consisting of one underscore normalizes to the empty string). -/
theorem normalizePath_malformed_counterexample :
    NormalizePath ("a..b") = "a..b" ∧
    NormalizePath ("a..b") ≠ "" ∧
    IsPathInMask (NormalizePath ("_")) (GetPathsFromMask ["_"]) = true := by
  decide

/-- C9 amended: NormalizePath has no failure mode, but it does not map paths
with empty segments to the empty string: it returns the empty string exactly
when every character of the input is an underscore (in particular for the
empty path); any other path, including one with empty dot-segments, keeps its
characters apart from underscore normalization. -/
theorem normalizePath_empty_iff_all_underscores (p : String) :
    NormalizePath p = "" ↔ ∀ c ∈ p.data, c = '_' := by
  constructor
  · intro h
    refine (normalizeChars_nil_iff p.data false).mp ?_
    have : (NormalizePath p).data = ("" : String).data := by rw [h]
    simpa [NormalizePath] using this
  · intro h
    show String.mk (normalizeChars p.data false) = String.mk []
    rw [(normalizeChars_nil_iff p.data false).mpr h]

/-- C9 amended claim applied at a concrete all-underscore path. -/
theorem normalizePath_empty_iff_witness : NormalizePath ("__") = "" :=
  (normalizePath_empty_iff_all_underscores ("__")).mpr (by decide)

/-! Claim C2. -/

/-- C2: a Field declared with the InMask condition whose normalized path is
not in the mask set validates to nil, whatever its value, zero-ness, policy or
comparison target; with a nil mask this holds unconditionally. -/
theorem inMask_condition_skips_when_not_in_mask
    (path : String) (value : GoVal) (policy : Policy) (cmpTo : GoVal)
    (paths : Option (List String))
    (h : IsPathInMask (NormalizePath path) paths = false) :
    (NewField path value policy .InMask cmpTo paths).Validate = none ∧
    (NewField path value policy .InMask cmpTo none).Validate = none := by
  constructor
  · simp [NewField, Field.Validate, h]
  · simp [NewField, Field.Validate, IsPathInMask]

/-- C2 witness: the mask-scoped spec example (mask [first_name], assert
user.last_name non-zero with empty value) produces no fault. -/
theorem inMask_condition_skips_witness :
    (NewField ("user.last_name") (.vstr ("")) .NonZero .InMask .vnil
      (GetPathsFromMask ["first_name"])).Validate = none :=
  (inMask_condition_skips_when_not_in_mask ("user.last_name") (.vstr (""))
    .NonZero .vnil (GetPathsFromMask ["first_name"]) (by decide)).1

/-! Claim C1. -/

/-- The end-to-end spec scenario, with the mask exactly as the spec writes it. -/
def specScenarioValidator : DefaultMessageValidator :=
  buildValidator ["first_name", "last_name"]
    [.assertNonZero ("user.id") (.vstr ("")),
     .assertNonZeroWhenInMask ("user.last_name") (.vstr ("")),
     .assertNonZeroWhenInMask ("user.first_name") (.vstr ("bob"))]

/-- The end-to-end spec scenario with the mask entries carrying the same
dotted prefix as the declared paths. -/
def specScenarioValidatorPrefixed : DefaultMessageValidator :=
  buildValidator ["user.first_name", "user.last_name"]
    [.assertNonZero ("user.id") (.vstr ("")),
     .assertNonZeroWhenInMask ("user.last_name") (.vstr ("")),
     .assertNonZeroWhenInMask ("user.first_name") (.vstr ("bob"))]

/-- C1 counterexample: with the mask [first_name, last_name] written in the
spec, mask membership is exact match on the normalized full dotted path, so
user.lastName is not in the mask set and executing the validator produces
exactly one fault, at user.id — not the two faults the claim states. -/
theorem endToEnd_scenario_counterexample :
    (specScenarioValidator.Exec).map ValidationErrors.pathList = some [("user.id")] ∧
    (some [("user.id")] : Option (List String)) ≠
      some [("user.id"), ("user.last_name")] := by
  decide

/-- C1 amended: in the end-to-end scenario the mask entries must carry the
same dotted prefix as the declared paths (mask [user.first_name,
user.last_name]); then executing the validator produces exactly two faults, at
user.id and at user.last_name in that order, and none at user.first_name. -/
theorem endToEnd_scenario_amended :
    (specScenarioValidatorPrefixed.Exec).map ValidationErrors.pathList =
      some [("user.id"), ("user.last_name")] ∧
    ([("user.id"), ("user.last_name")] : List String).contains ("user.first_name")
      = false := by
  decide

/-! Claim C5. -/

/-- C5: adding a fault for a path that already has an entry joins the cause
onto that entry in place — the index stays consistent, the fault list never
holds two entries with the same path, an already-present path leaves the
length unchanged and joins the causes at the existing position, and a new path
is appended. -/
theorem addErr_found_eq (v : ValidationErrors) (fe : FieldError) (i : Nat) (old : FieldError)
    (hlk : alookup v.idx fe.Path = some i) (hget : v.FieldErrors.get? i = some old) :
    v.addErr fe =
      { v with FieldErrors :=
          v.FieldErrors.set i { old with Err := errorsJoin old.Err fe.Err } } := by
  simp only [ValidationErrors.addErr, hlk, hget]

theorem addErr_new_eq (v : ValidationErrors) (fe : FieldError)
    (hlk : alookup v.idx fe.Path = none) :
    v.addErr fe =
      { v with
        FieldErrors := v.FieldErrors ++ [fe]
        idx := v.idx ++ [(fe.Path, v.FieldErrors.length)] } := by
  simp only [ValidationErrors.addErr, hlk]

theorem addErr_merges_in_place (v : ValidationErrors) (fe : FieldError) (hwf : v.wf) :
    (v.addErr fe).wf ∧
    (v.addErr fe).pathList.Nodup ∧
    (∀ i old, alookup v.idx fe.Path = some i → v.FieldErrors.get? i = some old →
      (v.addErr fe).FieldErrors.length = v.FieldErrors.length ∧
      (v.addErr fe).FieldErrors.get? i =
        some { old with Err := errorsJoin old.Err fe.Err }) ∧
    (alookup v.idx fe.Path = none →
      (v.addErr fe).FieldErrors = v.FieldErrors ++ [fe]) := by
  have hwfr : (v.addErr fe).wf := by
    cases hlk : alookup v.idx fe.Path with
    | some i =>
      cases hget : v.FieldErrors.get? i with
      | none =>
        have hv : v.addErr fe = v := by
          simp only [ValidationErrors.addErr, hlk, hget]
        rw [hv]
        exact hwf
      | some old =>
        rw [addErr_found_eq v fe i old hlk hget]
        constructor
        · intro p k hk
          obtain ⟨fe0, hfe0, hpath⟩ := hwf.1 p k hk
          by_cases hik : i = k
          · subst hik
            rw [hget] at hfe0
            cases hfe0
            refine ⟨{ old with Err := errorsJoin old.Err fe.Err }, ?_, hpath⟩
            have hlen : i < v.FieldErrors.length := (List.get?_eq_some.mp hget).1
            exact List.get?_set_eq_of_lt _ hlen
          · exact ⟨fe0, by rw [List.get?_set_ne _ _ hik]; exact hfe0, hpath⟩
        · intro k fe1 hk
          by_cases hik : i = k
          · subst hik
            have hlen : i < v.FieldErrors.length := (List.get?_eq_some.mp hget).1
            rw [List.get?_set_eq_of_lt _ hlen] at hk
            cases hk
            have := hwf.2 i old hget
            simpa using this
          · rw [List.get?_set_ne _ _ hik] at hk
            exact hwf.2 k fe1 hk
    | none =>
      rw [addErr_new_eq v fe hlk]
      constructor
      · intro p k hk
        simp only at hk
        rw [alookup_append] at hk
        cases hlk2 : alookup v.idx p with
        | some k0 =>
          rw [hlk2] at hk
          simp at hk
          subst hk
          obtain ⟨fe0, hfe0, hpath⟩ := hwf.1 p k0 hlk2
          refine ⟨fe0, ?_, hpath⟩
          rw [List.get?_append (List.get?_eq_some.mp hfe0).1]
          exact hfe0
        | none =>
          rw [hlk2] at hk
          simp [alookup] at hk
          obtain ⟨hp, hkk⟩ := hk
          subst hp
          subst hkk
          exact ⟨fe, List.get?_concat_length _ _, rfl⟩
      · intro k fe1 hk
        simp only at hk
        have hklen : k < v.FieldErrors.length + 1 := by
          have := (List.get?_eq_some.mp hk).1
          simpa using this
        rw [alookup_append]
        rcases Nat.lt_or_ge k v.FieldErrors.length with hlt | hge
        · rw [List.get?_append hlt] at hk
          rw [hwf.2 k fe1 hk]
        · have hkeq : k = v.FieldErrors.length := by omega
          subst hkeq
          rw [List.get?_concat_length] at hk
          cases hk
          rw [hlk]
          simp [alookup]
  refine ⟨hwfr, wf_pathList_nodup _ hwfr, ?_, ?_⟩
  · intro i old hlk hget
    rw [addErr_found_eq v fe i old hlk hget]
    have hlen : i < v.FieldErrors.length := (List.get?_eq_some.mp hget).1
    exact ⟨by simp, List.get?_set_eq_of_lt _ hlen⟩
  · intro hlk
    rw [addErr_new_eq v fe hlk]

/-- Fault entry used in the C5 witness. -/
def c5feA : FieldError :=
  { Path := ("user.id"), Policy := .NonZero, Value := .vstr (""), Expected := .vnil,
    Err := some (.base ("cause one")) }

/-- Second fault entry on the same path, used in the C5 witness. -/
def c5feB : FieldError :=
  { Path := ("user.id"), Policy := .Custom, Value := .vnil, Expected := .vnil,
    Err := some (.base ("cause two")) }

/-- C5 witness: declaring the same path fault twice yields one entry — the
list stays duplicate-free and its length is 1, not 2. -/
theorem addErr_merges_witness :
    ((NewValidationErrors.addErr c5feA).addErr c5feB).pathList.Nodup ∧
    ((NewValidationErrors.addErr c5feA).addErr c5feB).FieldErrors.length = 1 := by
  have h0 : NewValidationErrors.wf := by
    constructor
    · intro p i h
      simp [NewValidationErrors, alookup] at h
    · intro i fe h
      simp [NewValidationErrors] at h
  have h1 := addErr_merges_in_place NewValidationErrors c5feA h0
  have h2 := addErr_merges_in_place (NewValidationErrors.addErr c5feA) c5feB h1.1
  refine ⟨h2.2.1, ?_⟩
  have hlen := (h2.2.2.1 0 (NewValidationErrors.addErr c5feA |>.FieldErrors.getD 0 c5feA)
    (by decide) (by decide)).1
  rw [hlen]
  decide

/-! Claim C6. -/

/-- C6: an equality assertion (NotEqualTo or MustEqual) whose applicable field
has a captured value and comparison target of different concrete types always
evaluates to the not-comparable configuration fault (never a silent pass and
independent of the values), that fault wraps the configuration sentinel and
none of the field-failure sentinels, and the field loop still evaluates every
declaration after the faulty one. -/
theorem equality_assertion_type_mismatch_config_fault (f : Field)
    (hp : f.policy = .NotEqualTo ∨ f.policy = .MustEqual)
    (hc : f.condition = .Always ∨ f.inMask = true)
    (ht : f.value.typeOf ≠ f.cmpTo.typeOf) :
    f.Validate = some (newFieldsNotComparableErr f.path f.value.typeOf f.cmpTo.typeOf) ∧
    (newFieldsNotComparableErr f.path f.value.typeOf f.cmpTo.typeOf).is
      ErrFieldComparisonFailedNotComparable = true ∧
    (newFieldsNotComparableErr f.path f.value.typeOf f.cmpTo.typeOf).is
      ErrFieldMustNotBeZeroFailed = false ∧
    (newFieldsNotComparableErr f.path f.value.typeOf f.cmpTo.typeOf).is
      ErrFieldMustEqualFailed = false ∧
    (newFieldsNotComparableErr f.path f.value.typeOf f.cmpTo.typeOf).is
      ErrFieldMustNotEqualFailed = false ∧
    (∀ (errs : ValidationErrors) (pre post : List Field),
      execFields errs (pre ++ f :: post) =
        execFields ((execFields errs pre).addFieldErr f
          (newFieldsNotComparableErr f.path f.value.typeOf f.cmpTo.typeOf)) post) := by
  have hskip : ¬(f.condition = .InMask ∧ ¬(f.inMask = true)) := by
    rcases hc with h | h
    · rintro ⟨h1, _⟩
      rw [h] at h1
      exact absurd h1 (by decide)
    · rintro ⟨_, h2⟩
      exact h2 h
  have hnz : ¬(f.policy = .NonZero) := by
    rcases hp with h | h <;> rw [h] <;> decide
  have hcheck : f.checkEquals =
      .error (newFieldsNotComparableErr f.path f.value.typeOf f.cmpTo.typeOf) := by
    simp [Field.checkEquals, ht]
  have hval : f.Validate =
      some (newFieldsNotComparableErr f.path f.value.typeOf f.cmpTo.typeOf) := by
    simp [Field.Validate, hskip, hnz, hcheck]
    rcases hc with h | h
    · intro h1
      rw [h] at h1
      cases h1
    · intro _
      exact h
  refine ⟨hval, ?_, ?_, ?_, ?_, ?_⟩
  · simp [GoErr.is, newFieldsNotComparableErr, ErrFieldComparisonFailedNotComparable]
  · simp [GoErr.is, newFieldsNotComparableErr, ErrFieldComparisonFailedNotComparable,
      ErrFieldMustNotBeZeroFailed]
  · simp [GoErr.is, newFieldsNotComparableErr, ErrFieldComparisonFailedNotComparable,
      ErrFieldMustEqualFailed]
  · simp [GoErr.is, newFieldsNotComparableErr, ErrFieldComparisonFailedNotComparable,
      ErrFieldMustNotEqualFailed]
  · intro errs pre post
    rw [show pre ++ f :: post = (pre ++ [f]) ++ post by simp]
    rw [show execFields errs ((pre ++ [f]) ++ post) =
        execFields (execFields errs (pre ++ [f])) post by
      simp [execFields, List.foldl_append]]
    rw [show execFields errs (pre ++ [f]) =
        (execFields errs pre).addFieldErr f
          (newFieldsNotComparableErr f.path f.value.typeOf f.cmpTo.typeOf) by
      simp [execFields, List.foldl_append, hval]]

/-- C6 witness: comparing a string field to an integer target yields the
configuration fault. -/
theorem equality_assertion_type_mismatch_witness :
    (NewField ("a") (.vstr ("x")) .MustEqual .Always (.vint 1) none).Validate =
      some (newFieldsNotComparableErr ("a") (some .tstr) (some .tint)) :=
  (equality_assertion_type_mismatch_config_fault
    (NewField ("a") (.vstr ("x")) .MustEqual .Always (.vint 1) none)
    (Or.inr rfl) (Or.inl rfl) (by decide)).1

/-! Claim C10. -/

/-- C10: when the custom validation function returns the very collector it was
handed (so errors.Is relates the returned error to the collector), Exec
records no top-level custom validation error — the state after the custom step
is exactly the collector the function produced — and, with no field
declarations, a non-nil aggregate is returned exactly when that collector
holds errors; any other non-nil returned error is wrapped and stored as the
distinct top-level custom validation error. -/
theorem customValidation_collector_return (f : CustomFn) (paths : Option (List String))
    (hcol : (f NewValidationErrors).2 = CustomRet.collectorErr) :
    runCustom (some f) NewValidationErrors = (f NewValidationErrors).1 ∧
    ((DefaultMessageValidator.Exec ⟨some f, paths, []⟩ ≠ none) ↔
      (f NewValidationErrors).1.HasErrors = true) ∧
    (∀ (f2 : CustomFn) (e2 : ValidationErrors) (g : GoErr),
      f2 NewValidationErrors = (e2, CustomRet.otherErr g) →
      runCustom (some f2) NewValidationErrors =
        e2.SetCustomValidationErr
          (.wrapf ("an error occurred during custom message validation: ") g)) := by
  have h1 : runCustom (some f) NewValidationErrors = (f NewValidationErrors).1 := by
    rcases hfe : f NewValidationErrors with ⟨e2, ret⟩
    rw [hfe] at hcol
    simp only at hcol
    subst hcol
    simp only [runCustom, hfe]
  refine ⟨h1, ?_, ?_⟩
  · show ((if (execFields (runCustom (some f) NewValidationErrors) []).HasErrors
        then some (execFields (runCustom (some f) NewValidationErrors) []) else none) ≠ none) ↔ _
    rw [show execFields (runCustom (some f) NewValidationErrors) [] =
        runCustom (some f) NewValidationErrors from rfl, h1]
    cases hh : (f NewValidationErrors).1.HasErrors <;> simp [hh]
  · intro f2 e2 g hfe2
    simp only [runCustom, hfe2]

/-- Custom validation function used in the C10 witness: it adds one field
fault to the collector and returns the collector itself. -/
def c10fn : CustomFn := fun errs =>
  (errs.AddFieldErr ("user.id") (some (.base ("bad id"))) [], .collectorErr)

/-- C10 witness: returning the handed collector records no top-level custom
error, and the added field fault alone makes Exec return the aggregate. -/
theorem customValidation_collector_witness :
    runCustom (some c10fn) NewValidationErrors = (c10fn NewValidationErrors).1 ∧
    DefaultMessageValidator.Exec ⟨some c10fn, none, []⟩ ≠ none :=
  ⟨(customValidation_collector_return c10fn none rfl).1,
   ((customValidation_collector_return c10fn none rfl).2.1).mpr (by decide)⟩

/-! Claim C3. -/

/-- C3: an Auth stage error makes Exec return the zero payload and an envelope
with only the auth error populated, with the Validate and Serve stage
functions never invoked; in general the Validate stage runs only if Auth was
absent or returned nil, and the Serve stage runs only if additionally the
Validate stage was absent or returned nil. -/
theorem arrangement_short_circuit {U : Type} (s : Arrangement U) (zeroU : U) :
    (∀ err, s.Auth = some (some err) →
      s.Exec zeroU =
        ((zeroU, some { AuthError := some err, ValidationErrs := none, ServeError := none }),
          [Stage.auth])) ∧
    (Stage.validate ∈ (s.Exec zeroU).2 → s.Auth = none ∨ s.Auth = some none) ∧
    (Stage.serve ∈ (s.Exec zeroU).2 →
      (s.Auth = none ∨ s.Auth = some none) ∧
      (s.Validate = none ∨ s.Validate = some none)) := by
  obtain ⟨a, v, sv⟩ := s
  rcases a with _ | a <;> [skip; rcases a with _ | e]
  all_goals
    rcases v with _ | v <;> [skip; rcases v with _ | ve]
  all_goals
    rcases sv with _ | ⟨u, se⟩ <;> [skip; rcases se with _ | g]
  all_goals
    refine ⟨?_, ?_, ?_⟩ <;>
      simp [Arrangement.Exec, execValidate, execServe]

/-- Arrangement used in the C3 witness: a failing Auth stage with Validate and
Serve stages present. -/
def c3arr : Arrangement Nat :=
  { Auth := some (some (.base ("denied"))),
    Validate := some (some NewValidationErrors),
    Serve := some (7, none) }

/-- C3 witness: with the Auth stage failing, only Stage.auth is invoked and
only the auth error is populated. -/
theorem arrangement_short_circuit_witness :
    c3arr.Exec 0 =
      ((0,
        some { AuthError := some (.base ("denied")), ValidationErrs := none,
               ServeError := none }),
       [Stage.auth]) :=
  (arrangement_short_circuit c3arr 0).1 (.base ("denied")) rfl

/-! Claim C4. -/

/-- Arrangement used in the C4 counterexample: its Serve stage returns a
non-zero payload together with an error. -/
def c4arr : Arrangement Nat :=
  { Auth := none, Validate := none, Serve := some (5, some (.base ("boom"))) }

/-- C4 counterexample: when the Serve stage function returns a non-zero
payload together with an error, Exec forwards that payload next to the
populated serve error, so an error class can be populated alongside a
non-empty payload. -/
theorem envelope_payload_with_error_counterexample :
    (c4arr.Exec 0).1.1 = 5 ∧
    (c4arr.Exec 0).1.2 =
      some { AuthError := none, ValidationErrs := none,
             ServeError := some (.base ("boom")) } ∧
    (5 : Nat) ≠ 0 := by
  decide

/-- C4 amended: every envelope Exec returns has exactly one error class
populated (and a successful run returns no envelope at all); the payload
returned next to an envelope is the zero value whenever the populated class is
the auth or the validation error — only a failing Serve stage can pass a
non-zero payload through alongside its error. -/
theorem envelope_single_error_class {U : Type} (s : Arrangement U) (zeroU : U) :
    ∀ env, (s.Exec zeroU).1.2 = some env →
      env.classCount = 1 ∧
      ((env.AuthError.isSome || env.ValidationErrs.isSome) = true →
        (s.Exec zeroU).1.1 = zeroU) := by
  obtain ⟨a, v, sv⟩ := s
  rcases a with _ | a <;> [skip; rcases a with _ | e]
  all_goals
    rcases v with _ | v <;> [skip; rcases v with _ | ve]
  all_goals
    rcases sv with _ | ⟨u, se⟩ <;> [skip; rcases se with _ | g]
  all_goals
    intro env henv
  all_goals
    simp [Arrangement.Exec, execValidate, execServe] at henv
  all_goals
    subst henv
  all_goals
    refine ⟨by simp [Error.classCount], fun h => ?_⟩
  all_goals
    first
      | rfl
      | simp at h

/-- Arrangement used in the C4 witness: Auth passes, validation fails. -/
def c4arrW : Arrangement Nat :=
  { Auth := some none, Validate := some (some NewValidationErrors), Serve := none }

/-- C4 witness: a validation failure yields an envelope with exactly one
populated error class and the zero payload. -/
theorem envelope_single_error_class_witness :
    (({ AuthError := none, ValidationErrs := some NewValidationErrors,
        ServeError := none } : Error).classCount = 1) ∧
    (c4arrW.Exec 0).1.1 = 0 :=
  ⟨(envelope_single_error_class c4arrW 0
      { AuthError := none, ValidationErrs := some NewValidationErrors, ServeError := none }
      rfl).1,
   (envelope_single_error_class c4arrW 0
      { AuthError := none, ValidationErrs := some NewValidationErrors, ServeError := none }
      rfl).2 (by decide)⟩

/-! Claim C8. -/

theorem contains_eq_of_mem_iff {l1 l2 : List String} (h : ∀ p, p ∈ l1 ↔ p ∈ l2)
    (p : String) : l1.contains p = l2.contains p := by
  cases hc : l2.contains p
  · cases hc1 : l1.contains p
    · rfl
    · have hm : p ∈ l2 := (h p).mp (List.elem_iff.mp hc1)
      have helem : l2.contains p = true := List.elem_iff.mpr hm
      rw [helem] at hc
      cases hc
  · exact List.elem_iff.mpr ((h p).mpr (List.elem_iff.mp hc))

/-- C8: the result of Exec — and hence the rendered error string — depends
only on the builder declarations and on the mask's membership semantics, not
on the representation or the internal ordering of the mask set; with identical
declarations every execution therefore produces the identical (byte-identical
rendering) result. -/
theorem exec_depends_only_on_declarations (m1 m2 : List String) (decls : List Decl)
    (hnil : m1.isEmpty = m2.isEmpty)
    (hmem : ∀ p, p ∈ m1.map NormalizePath ↔ p ∈ m2.map NormalizePath) :
    (buildValidator m1 decls).Exec = (buildValidator m2 decls).Exec ∧
    ValidationErrors.errorString ((buildValidator m1 decls).Exec) =
      ValidationErrors.errorString ((buildValidator m2 decls).Exec) := by
  have hA : ∀ p, IsPathInMask p (GetPathsFromMask m1) = IsPathInMask p (GetPathsFromMask m2) := by
    intro p
    cases hh : m2.isEmpty
    · have h1 : GetPathsFromMask m1 = some (m1.map NormalizePath) := by
        rw [GetPathsFromMask, hnil, hh]
        rfl
      have h2 : GetPathsFromMask m2 = some (m2.map NormalizePath) := by
        rw [GetPathsFromMask, hh]
        rfl
      rw [h1, h2]
      exact contains_eq_of_mem_iff hmem p
    · have h1 : GetPathsFromMask m1 = none := by
        rw [GetPathsFromMask, hnil, hh]
        rfl
      have h2 : GetPathsFromMask m2 = none := by
        rw [GetPathsFromMask, hh]
        rfl
      rw [h1, h2]
  have hNF : ∀ (path : String) (v : GoVal) (pol : Policy) (cond : Condition) (cmp : GoVal),
      NewField path v pol cond cmp (GetPathsFromMask m1) =
        NewField path v pol cond cmp (GetPathsFromMask m2) := by
    intro path v pol cond cmp
    unfold NewField
    rw [hA]
  have key : ∀ (ds : List Decl) (c : Option CustomFn) (fs : List Field),
      (List.foldl applyDecl ⟨c, GetPathsFromMask m1, fs⟩ ds).Exec =
        (List.foldl applyDecl ⟨c, GetPathsFromMask m2, fs⟩ ds).Exec := by
    intro ds
    induction ds with
    | nil =>
      intro c fs
      rfl
    | cons d rest ih =>
      intro c fs
      cases d with
      | assertNonZero p v =>
        simp only [List.foldl_cons, applyDecl, DefaultMessageValidator.AssertNonZero, hNF]
        exact ih c _
      | assertNotEqualTo p v t =>
        simp only [List.foldl_cons, applyDecl, DefaultMessageValidator.AssertNotEqualTo, hNF]
        exact ih c _
      | assertEqualTo p v t =>
        simp only [List.foldl_cons, applyDecl, DefaultMessageValidator.AssertEqualTo, hNF]
        exact ih c _
      | assertNonZeroWhenInMask p v =>
        simp only [List.foldl_cons, applyDecl, DefaultMessageValidator.AssertNonZeroWhenInMask, hNF]
        exact ih c _
      | assertNotEqualToWhenInMask p v t =>
        simp only [List.foldl_cons, applyDecl,
          DefaultMessageValidator.AssertNotEqualToWhenInMask, hNF]
        exact ih c _
      | assertEqualToWhenInMask p v t =>
        simp only [List.foldl_cons, applyDecl,
          DefaultMessageValidator.AssertEqualToWhenInMask, hNF]
        exact ih c _
  have hmain : (buildValidator m1 decls).Exec = (buildValidator m2 decls).Exec :=
    key decls none []
  exact ⟨hmain, by rw [hmain]⟩

/-- C8 witness: two mask lists holding the same paths in different order give
byte-identical validator output for the same declarations. -/
theorem exec_depends_only_on_declarations_witness :
    (buildValidator ["a", "b"] [.assertNonZeroWhenInMask ("a") (.vstr (""))]).Exec =
      (buildValidator ["b", "a"] [.assertNonZeroWhenInMask ("a") (.vstr (""))]).Exec :=
  (exec_depends_only_on_declarations ["a", "b"] ["b", "a"]
    [.assertNonZeroWhenInMask ("a") (.vstr (""))] rfl
    (by
      intro p
      have h1 : (["a", "b"] : List String).map NormalizePath = ["a", "b"] := by decide
      have h2 : (["b", "a"] : List String).map NormalizePath = ["b", "a"] := by decide
      rw [h1, h2]
      constructor <;>
        · intro h
          simp only [List.mem_cons, List.not_mem_nil, or_false] at h ⊢
          tauto)).1

/-! Claim C7. -/

/-- Message used in the C7 evaluation: field a (set) holds a nested message
whose field b is set. -/
def c7msg : PMsg :=
  .mk [(("a"), ("a"), true, some (.mk [(("b"), ("b"), true, none)]))]

/-- C7: evaluating the resolver at path a.b on a fresh processor shows that
the memoization cache is not keyed by the path prefixes: the visited segment a
is cached under the full path a.b, the segment b under a.b. (the previous key
plus only a dot), and no entry for the prefix a exists. The traversal answers
true, and a repeated call with the same path on the populated cache returns
the same boolean. -/
theorem isFieldSet_cache_keys_bug :
    (fieldProcessor.isFieldSet [] ("a.b") (some c7msg)).1 = true ∧
    cacheKeys (fieldProcessor.isFieldSet [] ("a.b") (some c7msg)).2 = [("a.b"), ("a.b.")] ∧
    (cacheKeys (fieldProcessor.isFieldSet [] ("a.b") (some c7msg)).2).contains ("a") = false ∧
    (fieldProcessor.isFieldSet
      (fieldProcessor.isFieldSet [] ("a.b") (some c7msg)).2 ("a.b") (some c7msg)).1 = true := by
  decide

end Resdes
